import Mathlib

/-!
Shallow embedding of `src/bot.py` (a Telegram psychology-helper bot).

The program keeps an in-memory mapping `user_histories : Dict[int, List[Dict[str, str]]]`
from user id to a role-tagged transcript.  We model:

* the store as an association list `Store := List (Nat × List Msg)` with
  `lookupS` / `insertS` / `eraseS` modelling Python dict membership test,
  assignment and `del` (a dict never holds duplicate keys; `insertS`
  replaces and `eraseS` removes every binding for the key, which agrees
  with dict semantics on all states reachable from the empty store);
* `get_history`, `reset_history`, `is_crisis_message`, `call_openai_chat`
  and `handle_message` as pure functions from the corresponding Python
  functions; mutation of the global dict becomes explicit store passing.
* Network effects: the OpenAI chat call is an oracle argument
  `api : Option String` (`some content` when `completion.choices[0].message.content`
  is produced, `none` when the SDK call raises); the Telegram sends are
  recorded in an `Action` trace and the typing indicator gets a success
  flag `typingOk` (it is `await`-ed in `handle_message`, so when it raises
  the exception escapes the handler: modelled by `aborted := true`).
* Python `str.lower()` is modelled on the alphabets occurring in the
  program's data (ASCII and Russian Cyrillic including Ё); `str.strip()`
  drops leading/trailing whitespace; `kw in t` is list-infix on the
  character lists.
-/

namespace PsyBot

/-- Role tag of a chat message (`"system"`, `"user"`, `"assistant"` in the Python dicts). -/
inductive Role where
  | system : Role
  | user : Role
  | assistant : Role
deriving DecidableEq, Repr, Inhabited

/-- One conversation entry: a `{"role": ..., "content": ...}` dict in the Python code. -/
structure Msg where
  role : Role
  content : String
deriving DecidableEq, Repr, Inhabited

/-- The in-memory session store `user_histories : Dict[int, List[...]]`. -/
abbrev Store := List (Nat × List Msg)

/-- Dict lookup: `user_histories[user_id]` / membership test `user_id in user_histories`. -/
def lookupS : Store → Nat → Option (List Msg)
  | [], _ => none
  | (k, v) :: rest, u => if k = u then some v else lookupS rest u

/-- Dict assignment `user_histories[user_id] = h`. -/
def insertS : Store → Nat → List Msg → Store
  | [], u, h => [(u, h)]
  | (k, v) :: rest, u, h => if k = u then (u, h) :: rest else (k, v) :: insertS rest u h

/-- Dict deletion `del user_histories[user_id]` (no-op when the key is absent,
matching `reset_history`'s guarded delete). -/
def eraseS : Store → Nat → Store
  | [], _ => []
  | (k, v) :: rest, u => if k = u then eraseS rest u else (k, v) :: eraseS rest u

/-- The fixed persona instructions seeded as entry 0 of every transcript. -/
def systemText : String :=
  "Ты эмпатичный, тактичный психолог-консультант.\n" ++
  "- Отвечай по-русски.\n" ++
  "- Твоя цель — поддержать, помочь человеку разобраться в чувствах и ситуации.\n" ++
  "- Задавай уточняющие вопросы, помогай видеть разные варианты, предлагай мягкие шаги.\n" ++
  "- Не ставь психиатрических диагнозов и не обсуждай лекарства.\n" ++
  "- Если человек винит себя, помоги снизить самокритику и увидеть контекст.\n" ++
  "- Отвечай обычно 3–6 предложениями, без огромных полотен.\n" ++
  "- Будь тёплым, но уважительным, без сюсюканья.\n"

/-- The system entry placed at position 0 of a fresh transcript. -/
def systemMsg : Msg := ⟨Role.system, systemText⟩

/-- A `{"role": "user", "content": m}` entry. -/
def userE (m : String) : Msg := ⟨Role.user, m⟩

/-- A `{"role": "assistant", "content": r}` entry. -/
def assistantE (r : String) : Msg := ⟨Role.assistant, r⟩

/-- Python `get_history(user_id)`: return the existing transcript, or create one seeded
with the single system entry.  Returns the (possibly mutated) store together
with the transcript the Python function returns (an alias of the stored list). -/
def get_history (s : Store) (u : Nat) : Store × List Msg :=
  match lookupS s u with
  | some h => (s, h)
  | none => (insertS s u [systemMsg], [systemMsg])

/-- Python `reset_history(user_id)`: delete the user's transcript when present. -/
def reset_history (s : Store) (u : Nat) : Store :=
  eraseS s u

/-- Python `str.lower()` restricted to the alphabets relevant to this program:
ASCII `A`-`Z` and Cyrillic `А`-`Я` (U+0410-U+042F) map down by 0x20, `Ё`
(U+0401) maps to `ё` (U+0451); every other character is unchanged. -/
def pyLowerChar (c : Char) : Char :=
  if 0x41 ≤ c.toNat ∧ c.toNat ≤ 0x5A then Char.ofNat (c.toNat + 0x20)
  else if 0x410 ≤ c.toNat ∧ c.toNat ≤ 0x42F then Char.ofNat (c.toNat + 0x20)
  else if c.toNat = 0x401 then Char.ofNat 0x451
  else c

/-- Python `text.lower()` on a whole string. -/
def pyLower (s : String) : String :=
  ⟨s.data.map pyLowerChar⟩

/-- The fixed crisis keyword list of `is_crisis_message`. -/
def crisis_keywords : List String :=
  [ "убить себя"
  , "суицид"
  , "покончить с собой"
  , "не хочу жить"
  , "хочу умереть"
  , "резать вены"
  , "самоубий"
  , "себя убью"
  , "нет смысла жить"
  , "бессмысленно жить" ]

/-- Python `is_crisis_message(text)`: `None` or empty text is not a crisis
(Python `if not text: return False`); otherwise any keyword occurring as a
substring of the lowered text (Python `kw in t`) makes it a crisis. -/
def is_crisis_message (text : Option String) : Bool :=
  match text with
  | none => false
  | some t =>
    if t = "" then false
    else crisis_keywords.any fun kw => decide (kw.data <:+: (pyLower t).data)

/-- Python `str.strip()`: drop leading and trailing whitespace. -/
def pyStrip (s : String) : String :=
  ⟨((s.data.dropWhile Char.isWhitespace).reverse.dropWhile Char.isWhitespace).reverse⟩

/-- The fixed user-safe fallback returned when the OpenAI call raises. -/
def fallbackText : String :=
  "Я сейчас не могу обратиться к своей нейросети 😔\n" ++
  "Попробуй, пожалуйста, написать позже."

/-- The inline history bound of `call_openai_chat`: when the transcript holds
more than 30 entries it becomes `[history[0]] + history[-28:]`. -/
def trimHistory (h : List Msg) : List Msg :=
  if 30 < h.length then h.headI :: h.drop (h.length - 28) else h

/-- Python `call_openai_chat(user_id, user_message)`.  The user entry is appended
before the `try` block (so it stays in the store even when the call fails);
on success (`api = some content`) the stripped content is appended as the
assistant entry, the transcript is trimmed past 30 entries, and the reply is
returned; on failure (`api = none`) the fixed fallback string is returned
with no assistant entry and no trim. -/
def call_openai_chat (s : Store) (u : Nat) (user_message : String)
    (api : Option String) : Store × String :=
  let p := get_history s u
  let h1 := p.2 ++ [userE user_message]
  let s2 := insertS p.1 u h1
  match api with
  | none => (s2, fallbackText)
  | some content =>
    let reply := pyStrip content
    let h2 := h1 ++ [assistantE reply]
    (insertS s2 u (trimHistory h2), reply)

/-- The fixed crisis-resource reply sent by `crisis_reply`. -/
def crisisText : String :=
  "Я слышу, что тебе сейчас очень тяжело, и мысли, о которых ты пишешь, " ++
  "говорят о сильной боли 💔\n\n" ++
  "Я как бот не могу полноценно помочь в такой ситуации, но очень важно, " ++
  "чтобы рядом оказался живой человек, который сможет это сделать.\n\n" ++
  "Пожалуйста, обратись за помощью:\n" ++
  "• к близкому человеку, которому ты более-менее доверяешь;\n" ++
  "• к психологу или психотерапевту (очно или онлайн);\n" ++
  "• в местную службу экстренной помощи или на номер экстренных служб (например, 112).\n\n" ++
  "Ты правда заслуживаешь поддержки. Твои чувства — не слабость и не блаш. " ++
  "Если можешь, напиши сейчас кому-то из живых людей или позвони в экстренную службу."

/-- Observable external effects of `handle_message`, in program order. -/
inductive Action where
  | sendTyping : Action
  | callApi : Action
  | sendText : String → Action
deriving DecidableEq, Repr

/-- Result of one `handle_message` dispatch: the store afterwards, the trace of
external calls that completed, and whether an exception escaped the handler. -/
structure HMResult where
  store : Store
  sent : List Action
  aborted : Bool
deriving DecidableEq, Repr

/-- Python `handle_message(update, context)` for an inbound event whose text is
`text` (`none` models `not update.message or not update.message.text`).
The typing indicator `await update.effective_chat.send_action(...)` is the
first network call and is not guarded: when it raises (`typingOk = false`)
the handler aborts before the crisis check.  Reply deliveries are modelled
as succeeding sends. -/
def handle_message (s : Store) (u : Nat) (text : Option String)
    (typingOk : Bool) (api : Option String) : HMResult :=
  match text with
  | none => ⟨s, [], false⟩
  | some t =>
    if t = "" then ⟨s, [], false⟩
    else
      let user_text := pyStrip t
      if typingOk = false then ⟨s, [], true⟩
      else if is_crisis_message (some user_text) then
        ⟨s, [Action.sendTyping, Action.sendText crisisText], false⟩
      else
        let r := call_openai_chat s u user_text api
        ⟨r.1, [Action.sendTyping, Action.callApi, Action.sendText r.2], false⟩

/-- Every transcript present in the store is the single system entry followed
by non-system entries. -/
def StoreInv (s : Store) : Prop :=
  ∀ u t, lookupS s u = some t →
    ∃ rest, t = systemMsg :: rest ∧ ∀ e ∈ rest, e.role ≠ Role.system

/-- The non-system part of a transcript after trimming against the virtual
full exchange history `D`: the most recent 28 entries (all of `D` while it
has at most 28). -/
def windowOf (D : List Msg) : List Msg := D.drop (D.length - 28)

/-- The entries appended by a list of successful exchanges
`(user_message, api_content)`, in order. -/
def entriesOf : List (String × String) → List Msg
  | [] => []
  | p :: rest => userE p.1 :: assistantE (pyStrip p.2) :: entriesOf rest

/-- Run a sequence of successful (non-crisis) exchanges for one user. -/
def runExchanges (u : Nat) : Store → List (String × String) → Store
  | s, [] => s
  | s, p :: rest => runExchanges u (call_openai_chat s u p.1 (some p.2)).1 rest

/-- Thirty inbound non-crisis messages whose completion calls all fail. -/
def runFailures (u : Nat) : Nat → Store → Store
  | 0, s => s
  | n + 1, s => runFailures u n (handle_message s u (some "привет") true none).store

/-! ### Store lemmas -/

theorem lookupS_insertS_self (s : Store) (u : Nat) (h : List Msg) :
    lookupS (insertS s u h) u = some h := by
  induction s with
  | nil => simp [insertS, lookupS]
  | cons p rest ih =>
    obtain ⟨k, v⟩ := p
    by_cases hk : k = u
    · simp [insertS, lookupS, hk]
    · simp [insertS, lookupS, hk, ih]

theorem lookupS_insertS_ne (s : Store) (u v : Nat) (h : List Msg) (hne : v ≠ u) :
    lookupS (insertS s u h) v = lookupS s v := by
  have huv : ¬ u = v := fun e => hne e.symm
  induction s with
  | nil => simp [insertS, lookupS, huv]
  | cons p rest ih =>
    obtain ⟨k, w⟩ := p
    by_cases hk : k = u
    · subst hk
      simp [insertS, lookupS, huv]
    · simp [insertS, lookupS, hk, ih]

theorem lookupS_eraseS_self (s : Store) (u : Nat) :
    lookupS (eraseS s u) u = none := by
  induction s with
  | nil => simp [eraseS, lookupS]
  | cons p rest ih =>
    obtain ⟨k, v⟩ := p
    by_cases hk : k = u
    · simp [eraseS, hk, ih]
    · simp [eraseS, lookupS, hk, ih]

theorem lookupS_eraseS_ne (s : Store) (u v : Nat) (hne : v ≠ u) :
    lookupS (eraseS s u) v = lookupS s v := by
  have huv : ¬ u = v := fun e => hne e.symm
  induction s with
  | nil => simp [eraseS]
  | cons p rest ih =>
    obtain ⟨k, w⟩ := p
    by_cases hk : k = u
    · subst hk
      simp [eraseS, lookupS, huv, ih]
    · simp [eraseS, lookupS, hk, ih]

theorem eraseS_idem (s : Store) (u : Nat) :
    eraseS (eraseS s u) u = eraseS s u := by
  induction s with
  | nil => simp [eraseS]
  | cons p rest ih =>
    obtain ⟨k, v⟩ := p
    by_cases hk : k = u <;> simp [eraseS, hk, ih]

theorem lookupS_get_history_ne (s : Store) (u v : Nat) (hne : v ≠ u) :
    lookupS (get_history s u).1 v = lookupS s v := by
  cases h : lookupS s u with
  | some t => simp [get_history, h]
  | none => simp [get_history, h, lookupS_insertS_ne _ _ _ _ hne]

theorem lookupS_call_ne (s : Store) (u v : Nat) (m : String) (api : Option String)
    (hne : v ≠ u) :
    lookupS (call_openai_chat s u m api).1 v = lookupS s v := by
  cases api with
  | none =>
    simp [call_openai_chat, lookupS_insertS_ne _ _ _ _ hne,
      lookupS_get_history_ne s u v hne]
  | some c =>
    simp [call_openai_chat, lookupS_insertS_ne _ _ _ _ hne,
      lookupS_get_history_ne s u v hne]

theorem lookupS_handle_ne (s : Store) (u v : Nat) (t : Option String) (ty : Bool)
    (api : Option String) (hne : v ≠ u) :
    lookupS (handle_message s u t ty api).store v = lookupS s v := by
  cases t with
  | none => rfl
  | some t' =>
    by_cases h1 : t' = ""
    · simp [handle_message, h1]
    · by_cases h2 : ty = false
      · simp [handle_message, h1, h2]
      · cases hb : is_crisis_message (some (pyStrip t')) with
        | true => simp [handle_message, h1, h2, hb]
        | false => simp [handle_message, h1, h2, hb, lookupS_call_ne s u v _ api hne]

/-- C9: `reset_history` removes the user's transcript entirely and never errors
(it is a total function, also on absent users), it is idempotent, and
`reset_history` followed by `get_history` yields a fresh length-1 transcript
with all prior history discarded. -/
theorem reset_removes_discards_and_is_idempotent (s : Store) (u : Nat) :
    lookupS (reset_history s u) u = none ∧
    reset_history (reset_history s u) u = reset_history s u ∧
    (get_history (reset_history s u) u).2 = [systemMsg] ∧
    (get_history (reset_history s u) u).2.length = 1 ∧
    lookupS (get_history (reset_history s u) u).1 u = some [systemMsg] := by
  refine ⟨lookupS_eraseS_self s u, eraseS_idem s u, ?_, ?_, ?_⟩ <;>
    simp [get_history, reset_history, lookupS_eraseS_self, lookupS_insertS_self]

/-- C10: every store operation keyed by user `u` — `get_history`,
`reset_history`, `call_openai_chat` (both outcomes) and the whole
`handle_message` flow — leaves the transcript of every other user `v`
unchanged. -/
theorem per_user_isolation (s : Store) (u v : Nat) (hne : v ≠ u) :
    lookupS (get_history s u).1 v = lookupS s v ∧
    lookupS (reset_history s u) v = lookupS s v ∧
    (∀ m api, lookupS (call_openai_chat s u m api).1 v = lookupS s v) ∧
    (∀ t ty api, lookupS (handle_message s u t ty api).store v = lookupS s v) :=
  ⟨lookupS_get_history_ne s u v hne,
   lookupS_eraseS_ne s u v hne,
   fun m api => lookupS_call_ne s u v m api hne,
   fun t ty api => lookupS_handle_ne s u v t ty api hne⟩

/-- Witness for C10 at concrete inputs: operations for user 1 leave
user 2's transcript exactly as it was. -/
theorem per_user_isolation_witness :
    lookupS (get_history [(2, [systemMsg])] 1).1 2 = lookupS [(2, [systemMsg])] 2 ∧
    lookupS (reset_history [(2, [systemMsg])] 1) 2 = lookupS [(2, [systemMsg])] 2 ∧
    lookupS (call_openai_chat [(2, [systemMsg])] 1 "привет" none).1 2
      = lookupS [(2, [systemMsg])] 2 ∧
    lookupS (handle_message [(2, [systemMsg])] 1 (some "привет") true none).store 2
      = lookupS [(2, [systemMsg])] 2 := by
  obtain ⟨a, b, c, d⟩ := per_user_isolation [(2, [systemMsg])] 1 2 (by decide)
  exact ⟨a, b, c "привет" none, d (some "привет") true none⟩

/-- C5: when the completion call fails (`api = none`), the caller receives the
fixed fallback string (no exception: the function is total), the stored
transcript is the prior (or freshly created) transcript followed by only the
user entry, and the number of assistant entries is unchanged — no phantom
assistant entry is recorded for the failed attempt. -/
theorem call_failure_no_phantom_exchange (s : Store) (u : Nat) (m : String) :
    (call_openai_chat s u m none).2 = fallbackText ∧
    lookupS (call_openai_chat s u m none).1 u
      = some ((get_history s u).2 ++ [userE m]) ∧
    ((get_history s u).2 ++ [userE m]).countP
        (fun e => decide (e.role = Role.assistant))
      = (get_history s u).2.countP (fun e => decide (e.role = Role.assistant)) := by
  refine ⟨rfl, ?_, ?_⟩
  · simp [call_openai_chat, lookupS_insertS_self]
  · simp [userE]

/-- C6: the completion client is total (never propagates a failure): for every
input it returns the generated text with surrounding whitespace stripped on
success, and the fixed fallback string on any error — in a single attempt,
with no retry (the embedding consumes exactly one API outcome). -/
theorem completion_client_total (s : Store) (u : Nat) (m c : String) :
    (call_openai_chat s u m (some c)).2 = pyStrip c ∧
    (call_openai_chat s u m none).2 = fallbackText :=
  ⟨rfl, rfl⟩

/-- C1: when the (awaited) typing indicator succeeds and the stripped text
classifies as crisis, the handler sends exactly the fixed safety message
after the typing signal, never performs the completion call, and returns the
store unchanged — so an existing transcript is untouched, no transcript is
created for a new user, and the crisis message is not stored. -/
theorem crisis_path_fixed_reply_no_mutation (s : Store) (u : Nat) (t : String)
    (api : Option String) (hc : is_crisis_message (some (pyStrip t)) = true) :
    (handle_message s u (some t) true api).store = s ∧
    (handle_message s u (some t) true api).sent
      = [Action.sendTyping, Action.sendText crisisText] ∧
    Action.callApi ∉ (handle_message s u (some t) true api).sent ∧
    lookupS (handle_message s u (some t) true api).store u = lookupS s u := by
  have ht : ¬ t = "" := by
    intro h
    rw [h] at hc
    exact absurd hc (by decide)
  refine ⟨?_, ?_, ?_, ?_⟩ <;> simp [handle_message, ht, hc]

/-- Witness for C1: a concrete crisis message leaves the empty store empty and
produces only the typing signal and the fixed safety text. -/
theorem crisis_path_fixed_reply_no_mutation_witness :
    (handle_message [] 1 (some "суицид") true none).store = [] ∧
    (handle_message [] 1 (some "суицид") true none).sent
      = [Action.sendTyping, Action.sendText crisisText] ∧
    Action.callApi ∉ (handle_message [] 1 (some "суицид") true none).sent ∧
    lookupS (handle_message [] 1 (some "суицид") true none).store 1 = lookupS [] 1 :=
  crisis_path_fixed_reply_no_mutation [] 1 "суицид" none (by decide)

/-- C2 counterexample: the typing indicator is a fallible network call awaited
before the crisis check; on a concrete crisis message, when it raises, the
handler aborts having sent nothing — the crisis branch is skipped because of
an exception raised by a network call, contradicting the claim. -/
theorem typing_failure_skips_crisis_branch :
    is_crisis_message (some (pyStrip "суицид")) = true ∧
    (handle_message [] 1 (some "суицид") false none).aborted = true ∧
    (handle_message [] 1 (some "суицид") false none).sent = [] :=
  ⟨by decide, rfl, rfl⟩

/-- C2 amended: crisis classification runs and branches before the
completion-service call — the completion client is invoked only on messages
whose stripped text classifies as normal — but the typing-indicator network
call does precede classification and an exception there aborts the handler. -/
theorem crisis_branch_precedes_completion_call (s : Store) (u : Nat) (t : String)
    (ty : Bool) (api : Option String)
    (hmem : Action.callApi ∈ (handle_message s u (some t) ty api).sent) :
    is_crisis_message (some (pyStrip t)) = false := by
  by_cases h1 : t = ""
  · simp [handle_message, h1] at hmem
  · by_cases h2 : ty = false
    · simp [handle_message, h1, h2] at hmem
    · cases hb : is_crisis_message (some (pyStrip t)) with
      | false => rfl
      | true => simp [handle_message, h1, h2, hb] at hmem

/-- Witness for the amended C2: on a concrete normal message the completion
call is in the trace, and the theorem yields its normal classification. -/
theorem crisis_branch_precedes_completion_call_witness :
    is_crisis_message (some (pyStrip "привет")) = false :=
  crisis_branch_precedes_completion_call [] 1 "привет" true (some "ок") (by decide)

theorem pyLower_eq_empty_iff (t : String) : pyLower t = "" ↔ t = "" := by
  constructor
  · intro h
    have h2 : (pyLower t).data = [] := by rw [h]
    have h3 : t.data.map pyLowerChar = [] := h2
    exact String.ext (List.map_eq_nil_iff.mp h3)
  · intro h
    rw [h]
    rfl

/-- C7: the crisis classifier is a pure function of the text, returning
crisis exactly when some fixed keyword occurs as a substring of the lowered
text (match-anywhere), invariant under changes of letter case (texts with
the same lowering classify identically), and returning normal on null or
empty input. -/
theorem classifier_pure_characterization :
    is_crisis_message none = false ∧
    is_crisis_message (some "") = false ∧
    (∀ t : String, is_crisis_message (some t) = true ↔
      ∃ kw ∈ crisis_keywords, kw.data <:+: (pyLower t).data) ∧
    (∀ t₁ t₂ : String, pyLower t₁ = pyLower t₂ →
      is_crisis_message (some t₁) = is_crisis_message (some t₂)) := by
  refine ⟨rfl, rfl, ?_, ?_⟩
  · intro t
    by_cases ht : t = ""
    · subst ht
      constructor
      · intro h
        exact absurd h (by decide)
      · rintro ⟨kw, hmem, hinf⟩
        have hnil : (pyLower "").data = [] := rfl
        rw [hnil] at hinf
        have hkw : kw = "" := String.ext (List.infix_nil.mp hinf)
        subst hkw
        revert hmem
        decide
    · simp only [is_crisis_message, if_neg ht]
      rw [List.any_eq_true]
      constructor
      · rintro ⟨kw, hmem, hdec⟩
        exact ⟨kw, hmem, of_decide_eq_true hdec⟩
      · rintro ⟨kw, hmem, hinf⟩
        exact ⟨kw, hmem, decide_eq_true hinf⟩
  · intro t₁ t₂ hl
    by_cases h1 : t₁ = ""
    · have h2 : t₂ = "" := by
        rw [← pyLower_eq_empty_iff, ← hl, pyLower_eq_empty_iff]
        exact h1
      rw [h1, h2]
    · have h2 : ¬ t₂ = "" := by
        intro h
        apply h1
        rw [← pyLower_eq_empty_iff, hl, pyLower_eq_empty_iff]
        exact h
      simp only [is_crisis_message, if_neg h1, if_neg h2, hl]

/-- Witness for C7: a crisis phrase embedded upper-case inside a longer
sentence classifies as crisis, via the substring characterization. -/
theorem classifier_pure_characterization_witness :
    is_crisis_message (some "Мне очень плохо, я ХОЧУ УМЕРЕТЬ") = true :=
  (classifier_pure_characterization.2.2.1 "Мне очень плохо, я ХОЧУ УМЕРЕТЬ").mpr
    ⟨"хочу умереть", by decide, by decide⟩

/-! ### The store invariant (C8) -/

theorem storeInv_insertS (s : Store) (u : Nat) (h : List Msg)
    (hs : StoreInv s)
    (hh : ∃ rest, h = systemMsg :: rest ∧ ∀ e ∈ rest, e.role ≠ Role.system) :
    StoreInv (insertS s u h) := by
  intro v t hv
  by_cases hvu : v = u
  · subst hvu
    rw [lookupS_insertS_self] at hv
    cases hv
    exact hh
  · rw [lookupS_insertS_ne _ _ _ _ hvu] at hv
    exact hs v t hv

theorem storeInv_eraseS (s : Store) (u : Nat) (hs : StoreInv s) :
    StoreInv (eraseS s u) := by
  intro v t hv
  by_cases hvu : v = u
  · subst hvu
    rw [lookupS_eraseS_self] at hv
    exact Option.noConfusion hv
  · rw [lookupS_eraseS_ne _ _ _ hvu] at hv
    exact hs v t hv

theorem get_history_shape (s : Store) (u : Nat) (hs : StoreInv s) :
    ∃ rest, (get_history s u).2 = systemMsg :: rest ∧
      ∀ e ∈ rest, e.role ≠ Role.system := by
  cases h : lookupS s u with
  | some t =>
    have h2 := hs u t h
    simpa [get_history, h] using h2
  | none =>
    refine ⟨[], ?_, ?_⟩ <;> simp [get_history, h]

theorem storeInv_get_history (s : Store) (u : Nat) (hs : StoreInv s) :
    StoreInv (get_history s u).1 := by
  cases h : lookupS s u with
  | some t =>
    have he : (get_history s u).1 = s := by simp [get_history, h]
    rw [he]
    exact hs
  | none =>
    have he : (get_history s u).1 = insertS s u [systemMsg] := by simp [get_history, h]
    rw [he]
    exact storeInv_insertS s u _ hs ⟨[], rfl, by simp⟩

theorem trimHistory_shape (R : List Msg) (hR : ∀ e ∈ R, e.role ≠ Role.system) :
    ∃ R₂, trimHistory (systemMsg :: R) = systemMsg :: R₂ ∧
      ∀ e ∈ R₂, e.role ≠ Role.system := by
  unfold trimHistory
  by_cases h : 30 < (systemMsg :: R).length
  · rw [if_pos h]
    refine ⟨(systemMsg :: R).drop ((systemMsg :: R).length - 28), ?_, ?_⟩
    · rfl
    · intro e he
      obtain ⟨j, hj⟩ : ∃ j, (systemMsg :: R).length - 28 = j + 1 := by
        have hlen : (systemMsg :: R).length = R.length + 1 := by simp
        refine ⟨(systemMsg :: R).length - 28 - 1, ?_⟩
        omega
      rw [hj, List.drop_succ_cons] at he
      exact hR e (List.drop_subset j R he)
  · rw [if_neg h]
    exact ⟨R, rfl, hR⟩

theorem storeInv_call (s : Store) (u : Nat) (m : String) (api : Option String)
    (hs : StoreInv s) : StoreInv (call_openai_chat s u m api).1 := by
  obtain ⟨rest, hsh, hrole⟩ := get_history_shape s u hs
  have hs1 : StoreInv (get_history s u).1 := storeInv_get_history s u hs
  have hrole1 : ∀ e ∈ rest ++ [userE m], e.role ≠ Role.system := by
    intro e he
    rcases List.mem_append.mp he with h | h
    · exact hrole e h
    · rw [List.mem_singleton.mp h]
      simp [userE]
  have hh1 : ∃ r, (get_history s u).2 ++ [userE m] = systemMsg :: r ∧
      ∀ e ∈ r, e.role ≠ Role.system := by
    refine ⟨rest ++ [userE m], ?_, hrole1⟩
    rw [hsh]
    rfl
  cases api with
  | none =>
    show StoreInv (insertS (get_history s u).1 u ((get_history s u).2 ++ [userE m]))
    exact storeInv_insertS _ u _ hs1 hh1
  | some c =>
    show StoreInv (insertS (insertS (get_history s u).1 u ((get_history s u).2 ++ [userE m]))
      u (trimHistory (((get_history s u).2 ++ [userE m]) ++ [assistantE (pyStrip c)])))
    have hs2 := storeInv_insertS _ u _ hs1 hh1
    apply storeInv_insertS _ u _ hs2
    have hrole2 : ∀ e ∈ (rest ++ [userE m]) ++ [assistantE (pyStrip c)],
        e.role ≠ Role.system := by
      intro e he
      rcases List.mem_append.mp he with h | h
      · exact hrole1 e h
      · rw [List.mem_singleton.mp h]
        simp [assistantE]
    have heq : ((get_history s u).2 ++ [userE m]) ++ [assistantE (pyStrip c)]
        = systemMsg :: ((rest ++ [userE m]) ++ [assistantE (pyStrip c)]) := by
      rw [hsh]
      rfl
    rw [heq]
    exact trimHistory_shape _ hrole2

theorem storeInv_handle (s : Store) (u : Nat) (t : Option String) (ty : Bool)
    (api : Option String) (hs : StoreInv s) :
    StoreInv (handle_message s u t ty api).store := by
  cases t with
  | none => exact hs
  | some t' =>
    by_cases h1 : t' = ""
    · simpa [handle_message, h1] using hs
    · by_cases h2 : ty = false
      · simpa [handle_message, h1, h2] using hs
      · cases hb : is_crisis_message (some (pyStrip t')) with
        | true => simpa [handle_message, h1, h2, hb] using hs
        | false =>
          have hc := storeInv_call s u (pyStrip t') api hs
          simpa [handle_message, h1, h2, hb] using hc

/-- C8: the store invariant — every present user has a non-empty transcript
whose entry 0 is the single system persona entry, with no other system entry
— holds of the empty store and is preserved by every operation: transcript
creation (`get_history`), reset, and the completion call on both the success
path (append + trim) and the failure path, as well as the whole message
handler. -/
theorem store_invariant_preserved (s : Store) (hs : StoreInv s) :
    (∀ u, StoreInv (get_history s u).1) ∧
    (∀ u, ∃ rest, (get_history s u).2 = systemMsg :: rest ∧
      ∀ e ∈ rest, e.role ≠ Role.system) ∧
    (∀ u, StoreInv (reset_history s u)) ∧
    (∀ u m api, StoreInv (call_openai_chat s u m api).1) ∧
    (∀ u t ty api, StoreInv (handle_message s u t ty api).store) :=
  ⟨fun u => storeInv_get_history s u hs,
   fun u => get_history_shape s u hs,
   fun u => storeInv_eraseS s u hs,
   fun u m api => storeInv_call s u m api hs,
   fun u t ty api => storeInv_handle s u t ty api hs⟩

/-- Witness for C8: starting from the empty store (which satisfies the
invariant), a successful exchange preserves the invariant. -/
theorem store_invariant_preserved_witness :
    StoreInv (call_openai_chat [] 1 "привет" (some "ок")).1 :=
  (store_invariant_preserved [] (fun _ _ h => Option.noConfusion h)).2.2.2.1
    1 "привет" (some "ок")

/-! ### The rolling window (C3, C4) -/

theorem entriesOf_length (ps : List (String × String)) :
    (entriesOf ps).length = 2 * ps.length := by
  induction ps with
  | nil => rfl
  | cons p rest ih => simp [entriesOf, ih]; omega

theorem call_success_transcript (s : Store) (u : Nat) (m c : String)
    (h0 : List Msg) (hs : lookupS s u = some h0) :
    lookupS (call_openai_chat s u m (some c)).1 u
      = some (trimHistory (h0 ++ [userE m, assistantE (pyStrip c)])) := by
  have hg2 : (get_history s u).2 = h0 := by simp [get_history, hs]
  show lookupS (insertS (insertS (get_history s u).1 u ((get_history s u).2 ++ [userE m]))
      u (trimHistory (((get_history s u).2 ++ [userE m]) ++ [assistantE (pyStrip c)]))) u = _
  rw [lookupS_insertS_self, hg2, List.append_assoc]
  rfl

theorem call_success_transcript_fresh (s : Store) (u : Nat) (m c : String)
    (hs : lookupS s u = none) :
    lookupS (call_openai_chat s u m (some c)).1 u
      = some (trimHistory [systemMsg, userE m, assistantE (pyStrip c)]) := by
  have hg2 : (get_history s u).2 = [systemMsg] := by simp [get_history, hs]
  show lookupS (insertS (insertS (get_history s u).1 u ((get_history s u).2 ++ [userE m]))
      u (trimHistory (((get_history s u).2 ++ [userE m]) ++ [assistantE (pyStrip c)]))) u = _
  rw [lookupS_insertS_self, hg2]
  rfl

theorem trim_window_step (D : List Msg) (x y : Msg) (heven : D.length % 2 = 0) :
    trimHistory (systemMsg :: (windowOf D ++ [x, y]))
      = systemMsg :: windowOf (D ++ [x, y]) := by
  have hW : (windowOf D).length = D.length - (D.length - 28) := by
    simp [windowOf]
  by_cases hn : D.length ≤ 26
  · have hsub : D.length - 28 = 0 := by omega
    have hD : windowOf D = D := by
      unfold windowOf
      rw [hsub]
      rfl
    have hD2 : windowOf (D ++ [x, y]) = D ++ [x, y] := by
      unfold windowOf
      have hl : (D ++ [x, y]).length - 28 = 0 := by
        rw [List.length_append]
        simp
        omega
      rw [hl]
      rfl
    have hcond : ¬ 30 < (systemMsg :: (windowOf D ++ [x, y])).length := by
      rw [hD]
      simp
      omega
    unfold trimHistory
    rw [if_neg hcond, hD, hD2]
  · have h28 : 28 ≤ D.length := by omega
    have hWl : (windowOf D).length = 28 := by omega
    have hlen : (systemMsg :: (windowOf D ++ [x, y])).length = 31 := by
      simp [hWl]
    unfold trimHistory
    rw [if_pos (by omega), hlen]
    show systemMsg :: ((windowOf D ++ [x, y]).drop 2) = _
    have hdrop : (windowOf D ++ [x, y]).drop 2 = (windowOf D).drop 2 ++ [x, y] :=
      List.drop_append_of_le_length (by omega)
    have hdd : (windowOf D).drop 2 = D.drop (D.length - 26) := by
      unfold windowOf
      rw [List.drop_drop]
      congr 1
      omega
    have hrhs : windowOf (D ++ [x, y]) = D.drop (D.length - 26) ++ [x, y] := by
      unfold windowOf
      have hl : (D ++ [x, y]).length - 28 = D.length - 26 := by
        rw [List.length_append]
        simp
      rw [hl]
      exact List.drop_append_of_le_length (by omega)
    rw [hdrop, hdd, hrhs]

theorem runExchanges_window (u : Nat) (ps : List (String × String)) :
    ∀ (s : Store) (D : List Msg), D.length % 2 = 0 →
      lookupS s u = some (systemMsg :: windowOf D) →
      lookupS (runExchanges u s ps) u
        = some (systemMsg :: windowOf (D ++ entriesOf ps)) := by
  induction ps with
  | nil =>
    intro s D _ h
    simpa [runExchanges, entriesOf] using h
  | cons p rest ih =>
    intro s D heven h
    have step := call_success_transcript s u p.1 p.2 _ h
    rw [List.cons_append, trim_window_step D _ _ heven] at step
    have heven2 : (D ++ [userE p.1, assistantE (pyStrip p.2)]).length % 2 = 0 := by
      simp
      omega
    have hrec := ih (call_openai_chat s u p.1 (some p.2)).1
      (D ++ [userE p.1, assistantE (pyStrip p.2)]) heven2 step
    rw [List.append_assoc] at hrec
    exact hrec

theorem runExchanges_from_empty (u : Nat) (p : String × String)
    (ps : List (String × String)) :
    lookupS (runExchanges u [] (p :: ps)) u
      = some (systemMsg :: windowOf (entriesOf (p :: ps))) := by
  have h1 := call_success_transcript_fresh [] u p.1 p.2 rfl
  have h1' : lookupS (call_openai_chat [] u p.1 (some p.2)).1 u
      = some (systemMsg :: windowOf [userE p.1, assistantE (pyStrip p.2)]) := h1
  have hrec := runExchanges_window u ps (call_openai_chat [] u p.1 (some p.2)).1
    [userE p.1, assistantE (pyStrip p.2)] (by simp) h1'
  exact hrec

/-- C3: when a transcript exceeds 30 entries, trimming replaces it with entry
0 followed by the last 28 entries in order; consequently any non-empty run of
N successful non-crisis exchanges for one user leaves the transcript equal to
the system entry followed by the most recent 28 of the appended entries (all
of them while the count allows) — so the length is `1 + 2N` while `N ≤ 14`,
and exactly 29 once `N ≥ 15`, the retained non-system entries being the most
recent 28. -/
theorem trimming_and_rolling_window (h : List Msg) (u : Nat)
    (ps : List (String × String)) (hne : ps ≠ []) :
    (30 < h.length → trimHistory h = h.headI :: h.drop (h.length - 28)) ∧
    lookupS (runExchanges u [] ps) u
      = some (systemMsg :: (entriesOf ps).drop (2 * ps.length - 28)) ∧
    (ps.length ≤ 14 →
      ∀ t, lookupS (runExchanges u [] ps) u = some t → t.length = 1 + 2 * ps.length) ∧
    (15 ≤ ps.length →
      ∀ t, lookupS (runExchanges u [] ps) u = some t → t.length = 29) := by
  obtain ⟨p, rest, hps⟩ : ∃ p rest, ps = p :: rest := by
    cases ps with
    | nil => exact absurd rfl hne
    | cons p rest => exact ⟨p, rest, rfl⟩
  have hmain : lookupS (runExchanges u [] ps) u
      = some (systemMsg :: (entriesOf ps).drop (2 * ps.length - 28)) := by
    rw [hps]
    have := runExchanges_from_empty u p rest
    rwa [windowOf, entriesOf_length] at this
  refine ⟨fun hl => by unfold trimHistory; rw [if_pos hl], hmain, ?_, ?_⟩
  · intro hlen t ht
    rw [hmain] at ht
    cases ht
    have hd : 2 * ps.length - 28 = 0 := by omega
    simp [hd, entriesOf_length]
    omega
  · intro hlen t ht
    rw [hmain] at ht
    cases ht
    simp [entriesOf_length]
    omega

/-- Witness for C3 at concrete inputs: a 31-entry transcript trims to head
plus last 28, and 15 successful exchanges leave a trimmed transcript. -/
theorem trimming_and_rolling_window_witness :
    trimHistory (List.replicate 31 (userE "х"))
      = (List.replicate 31 (userE "х")).headI :: (List.replicate 31 (userE "х")).drop
          ((List.replicate 31 (userE "х")).length - 28) ∧
    lookupS (runExchanges 1 [] (List.replicate 15 ("а", "б"))) 1
      = some (systemMsg :: (entriesOf (List.replicate 15 ("а", "б"))).drop
          (2 * (List.replicate 15 (("а", "б") : String × String)).length - 28)) := by
  have h := trimming_and_rolling_window (List.replicate 31 (userE "х")) 1
    (List.replicate 15 ("а", "б")) (by decide)
  exact ⟨h.1 (by decide), h.2.1⟩

/-- C4 counterexample: after 30 content-handling operations whose completion
call fails, user 1's stored transcript holds 31 entries — the 30-entry cap is
exceeded, because the failure path appends the user entry without trimming. -/
theorem failed_calls_exceed_cap :
    ((lookupS (runFailures 1 30 []) 1).getD []).length = 31 ∧
    30 < ((lookupS (runFailures 1 30 []) 1).getD []).length := by
  refine ⟨by decide, by decide⟩

theorem trimHistory_length_le (h : List Msg) : (trimHistory h).length ≤ 30 := by
  unfold trimHistory
  by_cases hl : 30 < h.length
  · rw [if_pos hl]
    simp
    omega
  · rw [if_neg hl]
    omega

/-- C4 amended: trimming runs after the assistant append of every successful
exchange, so a content-handling operation whose completion call succeeds
leaves the user's stored transcript at 30 entries or fewer regardless of its
previous size; the failure path, however, appends the user entry without
trimming, so repeated failures can grow a transcript beyond 30 entries. -/
theorem successful_call_respects_cap (s : Store) (u : Nat) (m c : String) :
    ((lookupS (call_openai_chat s u m (some c)).1 u).getD []).length ≤ 30 := by
  show ((lookupS (insertS (insertS (get_history s u).1 u ((get_history s u).2 ++ [userE m]))
      u (trimHistory (((get_history s u).2 ++ [userE m]) ++ [assistantE (pyStrip c)]))) u).getD
      []).length ≤ 30
  rw [lookupS_insertS_self]
  exact trimHistory_length_le _

end PsyBot
